import Mathlib

/-!
Shallow embedding of the grade-manager application's domain logic
(student grading, record store operations and the filtered/paginated
list view), translated from `src/app/(tabs)/index.tsx`,
`src/app/(tabs)/explore.tsx` and the theme context module.

Numeric scores are modelled by `ℚ`: the source computes with JS numbers,
and every claim under verification concerns exact decimal values and
order comparisons with rational thresholds, which `ℚ` represents
faithfully.  The JS value `NaN` (relevant only where the source feeds
unparsed input to the grading functions) is modelled by `Option ℚ`
with `none` for `NaN`, mirroring the JS rule that every `>=` comparison
against `NaN` is false and that arithmetic propagates `NaN`.
-/

/-- A row of the `mahasiswa` table, as in the `Student` interface of
`index.tsx`: `id` integer primary key, `nama`/`nim`/`matkul` text and
the three component scores `tb1`/`tb2`/`uas`. -/
structure Student where
  id : Nat
  nama : String
  nim : String
  matkul : String
  tb1 : ℚ
  tb2 : ℚ
  uas : ℚ
deriving Repr, DecidableEq

/-- `calculateFinalScore` from `index.tsx` (duplicated verbatim in
`explore.tsx`): `tb1 * 0.3 + tb2 * 0.3 + uas * 0.4`. -/
def calculateFinalScore (tb1 tb2 uas : ℚ) : ℚ :=
  tb1 * 0.3 + tb2 * 0.3 + uas * 0.4

/-- `scoreToGrade` from `index.tsx` (duplicated verbatim in
`explore.tsx`): the highest-first if-chain over the five thresholds,
defaulting to `"D"`. -/
def scoreToGrade (score : ℚ) : String :=
  if score ≥ 80 then "A"
  else if score ≥ 75 then "B+"
  else if score ≥ 69 then "B"
  else if score ≥ 65 then "C+"
  else if score ≥ 56 then "C"
  else "D"

/-- C1: every score falls in exactly one of the six bands, with the
half-open intervals determined by evaluating the thresholds
highest-first (first match wins); each boundary belongs to the higher
band, in particular 80 maps to A and 79.999 to B+. -/
theorem scoreToGrade_bands : ∀ score : ℚ,
    (scoreToGrade score = "A" ↔ 80 ≤ score) ∧
    (scoreToGrade score = "B+" ↔ 75 ≤ score ∧ score < 80) ∧
    (scoreToGrade score = "B" ↔ 69 ≤ score ∧ score < 75) ∧
    (scoreToGrade score = "C+" ↔ 65 ≤ score ∧ score < 69) ∧
    (scoreToGrade score = "C" ↔ 56 ≤ score ∧ score < 65) ∧
    (scoreToGrade score = "D" ↔ score < 56) ∧
    scoreToGrade 80 = "A" ∧ scoreToGrade 79.999 = "B+" := by
  intro score
  refine ⟨?_, ?_, ?_, ?_, ?_, ?_, by norm_num [scoreToGrade], by norm_num [scoreToGrade]⟩ <;>
    · unfold scoreToGrade
      split_ifs <;> simp_all <;>
        first
          | linarith
          | (intro h; linarith)

/-- C2: `calculateFinalScore` is the stated weighted sum, is additive
(hence affine) and monotonically non-decreasing in each argument, and
takes the value 100 at (100,100,100) and 0 at (0,0,0). -/
theorem calculateFinalScore_spec : ∀ s1 s2 e : ℚ,
    calculateFinalScore s1 s2 e = s1 * 0.3 + s2 * 0.3 + e * 0.4 ∧
    (∀ d1 d2 d3 : ℚ, calculateFinalScore (s1 + d1) (s2 + d2) (e + d3)
        = calculateFinalScore s1 s2 e + calculateFinalScore d1 d2 d3) ∧
    (∀ s1' : ℚ, s1 ≤ s1' → calculateFinalScore s1 s2 e ≤ calculateFinalScore s1' s2 e) ∧
    (∀ s2' : ℚ, s2 ≤ s2' → calculateFinalScore s1 s2 e ≤ calculateFinalScore s1 s2' e) ∧
    (∀ e' : ℚ, e ≤ e' → calculateFinalScore s1 s2 e ≤ calculateFinalScore s1 s2 e') ∧
    calculateFinalScore 100 100 100 = 100 ∧
    calculateFinalScore 0 0 0 = 0 := by
  intro s1 s2 e
  unfold calculateFinalScore
  refine ⟨rfl, fun d1 d2 d3 => by ring, ?_, ?_, ?_, by norm_num, by norm_num⟩ <;>
    · intro x hx
      nlinarith

/-- Witness for C2: the monotonicity components applied at concrete
inputs. -/
theorem calculateFinalScore_spec_witness :
    calculateFinalScore 50 60 70 ≤ calculateFinalScore 80 60 70 ∧
    calculateFinalScore 50 60 70 ≤ calculateFinalScore 50 90 70 ∧
    calculateFinalScore 50 60 70 ≤ calculateFinalScore 50 60 100 :=
  ⟨(calculateFinalScore_spec 50 60 70).2.2.1 80 (by norm_num),
   (calculateFinalScore_spec 50 60 70).2.2.2.1 90 (by norm_num),
   (calculateFinalScore_spec 50 60 70).2.2.2.2.1 100 (by norm_num)⟩

/-- C5 counterexample: the claim asserts `scoreToGrade 74.99 = "C+"`,
but 74.99 is at least 69 and below 75, so the code returns `"B"`. -/
theorem scoreToGrade_7499_not_Cplus :
    scoreToGrade 74.99 = "B" ∧ scoreToGrade 74.99 ≠ "C+" := by
  have h : scoreToGrade 74.99 = "B" := by norm_num [scoreToGrade]
  exact ⟨h, by rw [h]; decide⟩

/-- C5 (amended): band boundaries — 79.99 gives B+, 80.00 gives A and
74.99 gives B; each of the five explicit thresholds is inclusive on the
lower bound of the higher band, and values just below each threshold
fall in the band below. -/
theorem scoreToGrade_boundaries :
    scoreToGrade 79.99 = "B+" ∧ scoreToGrade 80 = "A" ∧ scoreToGrade 74.99 = "B" ∧
    scoreToGrade 75 = "B+" ∧ scoreToGrade 69 = "B" ∧ scoreToGrade 65 = "C+" ∧
    scoreToGrade 56 = "C" ∧
    scoreToGrade 68.99 = "C+" ∧ scoreToGrade 64.99 = "C" ∧ scoreToGrade 55.99 = "D" := by
  refine ⟨?_, ?_, ?_, ?_, ?_, ?_, ?_, ?_, ?_, ?_⟩ <;> norm_num [scoreToGrade]

/-- A JS number as consumed by the grading helpers: `none` models the
`NaN` value that `parseFloat` yields on non-numeric input. -/
def JSNum : Type := Option ℚ
deriving DecidableEq, Repr

/-- JS multiplication by a numeric literal: `NaN * c` is `NaN`. -/
def jsMul (a : JSNum) (c : ℚ) : JSNum :=
  match a with
  | some x => some (x * c)
  | none => none

/-- JS addition: any `NaN` operand makes the sum `NaN`. -/
def jsAdd (a b : JSNum) : JSNum :=
  match a, b with
  | some x, some y => some (x + y)
  | _, _ => none

/-- JS `>=` against a numeric threshold: every comparison with `NaN`
is false. -/
def jsGe (a : JSNum) (c : ℚ) : Bool :=
  match a with
  | some x => decide (c ≤ x)
  | none => false

/-- `calculateFinalScore` evaluated under the JS `NaN` semantics, as
reached when `parseFloat` fails on a score field. -/
def calculateFinalScoreJS (tb1 tb2 uas : JSNum) : JSNum :=
  jsAdd (jsAdd (jsMul tb1 0.3) (jsMul tb2 0.3)) (jsMul uas 0.4)

/-- `scoreToGrade` with its comparisons evaluated under the JS `NaN`
semantics: the same if-chain, each guard a JS `>=`. -/
def scoreToGradeJS (score : JSNum) : String :=
  if jsGe score 80 then "A"
  else if jsGe score 75 then "B+"
  else if jsGe score 69 then "B"
  else if jsGe score 65 then "C+"
  else if jsGe score 56 then "C"
  else "D"

/-- C10: `scoreToGrade` is total including on `NaN`: a `NaN` score
fails every threshold comparison and is classified as the valid grade
`"D"`; `calculateFinalScore` propagates `NaN` from any argument, and on
ordinary numbers the JS-semantics function agrees with `scoreToGrade`. -/
theorem scoreToGradeJS_nan :
    scoreToGradeJS none = "D" ∧
    (∀ t1 t2 u : JSNum, (t1 = none ∨ t2 = none ∨ u = none) →
        calculateFinalScoreJS t1 t2 u = none) ∧
    (∀ t2 u : JSNum, scoreToGradeJS (calculateFinalScoreJS none t2 u) = "D") ∧
    (∀ q : ℚ, scoreToGradeJS (some q) = scoreToGrade q) := by
  refine ⟨rfl, ?_, ?_, ?_⟩
  · rintro (_ | t1) (_ | t2) (_ | u) h <;>
      simp_all [calculateFinalScoreJS, jsAdd, jsMul]
  · rintro (_ | t2) (_ | u) <;> rfl
  · intro q
    simp [scoreToGradeJS, scoreToGrade, jsGe]

/-- Witness for C10: `NaN` propagation applied at a concrete input. -/
theorem scoreToGradeJS_nan_witness :
    calculateFinalScoreJS none (some 50) (some 50) = none :=
  scoreToGradeJS_nan.2.1 none (some 50) (some 50) (Or.inl rfl)

/-- Numeric value of a list of decimal digit characters. -/
def digitsToNat (cs : List Char) : Nat :=
  cs.foldl (fun acc c => acc * 10 + (c.toNat - '0'.toNat)) 0

/-- JS `parseFloat`, modelled for the non-negative decimal numerals the
app's numeric form fields can hold (digits, optionally a dot and more
digits): the longest parsable leading part is converted, and the result
is `NaN` (`none`) when no digit can be consumed. -/
def parseFloat (s : String) : Option ℚ :=
  let cs := s.data
  let ip := cs.takeWhile Char.isDigit
  let rest := cs.dropWhile Char.isDigit
  let fp :=
    match rest with
    | '.' :: t => t.takeWhile Char.isDigit
    | _ => []
  if ip.isEmpty ∧ fp.isEmpty then none
  else some ((digitsToNat ip : ℚ) + (digitsToNat fp : ℚ) / (10 : ℚ) ^ fp.length)

/-- The six text fields of the add/edit forms (scores are entered as
strings and parsed on save). -/
structure StudentForm where
  nama : String
  nim : String
  matkul : String
  tb1 : String
  tb2 : String
  uas : String
deriving Repr, DecidableEq

/-- Outcome of a save attempt: the alert/inline-error paths of
`handleSaveStudent` and the edit modal's `handleSave` — missing field,
out-of-range score, duplicate NIM found by the application pre-check,
or the generic catch-path error when the INSERT itself fails — or a
persisted record. -/
inductive SaveResult where
  | missingField
  | invalidScore
  | duplicateNim
  | insertError
  | saved (st : Student)
deriving Repr, DecidableEq

/-- JS `String.prototype.trim`: strip leading and trailing whitespace
from the character list. -/
def jsTrim (s : String) : String :=
  ⟨((s.data.dropWhile Char.isWhitespace).reverse.dropWhile Char.isWhitespace).reverse⟩

/-- `handleSaveStudent` from `explore.tsx`: presence check on all six
fields, `parseFloat` plus range check on the scores, duplicate-NIM
lookup with the raw (untrimmed) NIM, then the parametrized INSERT of
the trimmed fields inside try/catch; `nextId` stands for the
AUTOINCREMENT id the database would assign.  The schema's unique index
`idx_mahasiswa_nim` makes the INSERT itself fail when the trimmed NIM —
the value actually inserted — collides with a stored NIM even though
the raw pre-check passed; the catch then shows the generic error alert
and nothing is persisted, modelled by the `insertError` outcome. -/
def handleSaveStudent (store : List Student) (nextId : Nat) (f : StudentForm) :
    SaveResult × List Student :=
  if f.nama = "" ∨ f.nim = "" ∨ f.matkul = "" ∨ f.tb1 = "" ∨ f.tb2 = "" ∨ f.uas = "" then
    (.missingField, store)
  else
    match parseFloat f.tb1, parseFloat f.tb2, parseFloat f.uas with
    | some t1, some t2, some u =>
      if t1 < 0 ∨ t1 > 100 ∨ t2 < 0 ∨ t2 > 100 ∨ u < 0 ∨ u > 100 then
        (.invalidScore, store)
      else if store.any (fun s => s.nim == f.nim) then
        (.duplicateNim, store)
      else if store.any (fun s => s.nim == jsTrim f.nim) then
        (.insertError, store)
      else
        let st : Student := { id := nextId, nama := jsTrim f.nama, nim := jsTrim f.nim,
                              matkul := jsTrim f.matkul, tb1 := t1, tb2 := t2, uas := u }
        (.saved st, store ++ [st])
    | _, _, _ => (.invalidScore, store)

/-- A score field parses and lies in [0,100] — the condition under
which the save handlers pass their score validation. -/
def scoreOk (s : String) : Bool :=
  match parseFloat s with
  | some q => decide (0 ≤ q) && decide (q ≤ 100)
  | none => false

/-- The form passes the presence and score validation that both save
handlers perform before the duplicate-NIM check. -/
def validForm (f : StudentForm) : Bool :=
  f.nama != "" && f.nim != "" && f.matkul != "" &&
  f.tb1 != "" && f.tb2 != "" && f.uas != "" &&
  scoreOk f.tb1 && scoreOk f.tb2 && scoreOk f.uas

/-- A form with an empty field fails the presence validation. -/
theorem validForm_empty {f : StudentForm}
    (h : f.nama = "" ∨ f.nim = "" ∨ f.matkul = "" ∨ f.tb1 = "" ∨ f.tb2 = "" ∨ f.uas = "") :
    validForm f = false := by
  rcases h with h | h | h | h | h | h <;> simp [validForm, h]

/-- A form whose score field fails to parse or is out of range fails
the score validation. -/
theorem validForm_score_bad {f : StudentForm}
    (h : scoreOk f.tb1 = false ∨ scoreOk f.tb2 = false ∨ scoreOk f.uas = false) :
    validForm f = false := by
  rcases h with h | h | h <;> simp [validForm, h]

/-- `scoreOk` characterised through `parseFloat`. -/
theorem scoreOk_iff (s : String) :
    scoreOk s = true ↔ ∃ q, parseFloat s = some q ∧ 0 ≤ q ∧ q ≤ 100 := by
  unfold scoreOk
  cases h : parseFloat s <;> simp [h, and_assoc]

/-- `validForm` characterised field by field. -/
theorem validForm_iff (f : StudentForm) :
    validForm f = true ↔
      f.nama ≠ "" ∧ f.nim ≠ "" ∧ f.matkul ≠ "" ∧ f.tb1 ≠ "" ∧ f.tb2 ≠ "" ∧ f.uas ≠ "" ∧
      scoreOk f.tb1 = true ∧ scoreOk f.tb2 = true ∧ scoreOk f.uas = true := by
  simp [validForm, and_assoc]

/-- Full case analysis of `handleSaveStudent`: an invalid form never
changes the store nor saves; a valid form whose raw NIM collides yields
the duplicate error with the store unchanged; a valid form whose raw
NIM is fresh but whose trimmed NIM collides hits the unique index and
yields the generic insert error with the store unchanged; otherwise
exactly the parsed, trimmed record is appended. -/
theorem handleSaveStudent_master (store : List Student) (nextId : Nat) (f : StudentForm) :
    (validForm f = false ∧ (handleSaveStudent store nextId f).2 = store ∧
        ∀ st, (handleSaveStudent store nextId f).1 ≠ .saved st) ∨
    (validForm f = true ∧ store.any (fun s => s.nim == f.nim) = true ∧
        handleSaveStudent store nextId f = (.duplicateNim, store)) ∨
    (validForm f = true ∧ store.any (fun s => s.nim == f.nim) = false ∧
        store.any (fun s => s.nim == jsTrim f.nim) = true ∧
        handleSaveStudent store nextId f = (.insertError, store)) ∨
    (validForm f = true ∧ store.any (fun s => s.nim == f.nim) = false ∧
        store.any (fun s => s.nim == jsTrim f.nim) = false ∧
        ∃ q1 q2 q3, parseFloat f.tb1 = some q1 ∧ parseFloat f.tb2 = some q2 ∧
          parseFloat f.uas = some q3 ∧
          0 ≤ q1 ∧ q1 ≤ 100 ∧ 0 ≤ q2 ∧ q2 ≤ 100 ∧ 0 ≤ q3 ∧ q3 ≤ 100 ∧
          handleSaveStudent store nextId f =
            (.saved { id := nextId, nama := jsTrim f.nama, nim := jsTrim f.nim,
                      matkul := jsTrim f.matkul, tb1 := q1, tb2 := q2, uas := q3 },
             store ++ [{ id := nextId, nama := jsTrim f.nama, nim := jsTrim f.nim,
                         matkul := jsTrim f.matkul, tb1 := q1, tb2 := q2, uas := q3 }])) := by
  by_cases hempty : f.nama = "" ∨ f.nim = "" ∨ f.matkul = "" ∨ f.tb1 = "" ∨ f.tb2 = "" ∨ f.uas = ""
  · have hres : handleSaveStudent store nextId f = (.missingField, store) := by
      unfold handleSaveStudent
      rw [if_pos hempty]
    exact Or.inl ⟨validForm_empty hempty, by rw [hres], by rw [hres]; intro st h; exact SaveResult.noConfusion h⟩
  · rcases h1 : parseFloat f.tb1 with _ | q1
    · have hres : handleSaveStudent store nextId f = (.invalidScore, store) := by
        unfold handleSaveStudent
        rw [if_neg hempty, h1]
      refine Or.inl ⟨validForm_score_bad (Or.inl ?_), by rw [hres], by rw [hres]; intro st h; exact SaveResult.noConfusion h⟩
      simp [scoreOk, h1]
    rcases h2 : parseFloat f.tb2 with _ | q2
    · have hres : handleSaveStudent store nextId f = (.invalidScore, store) := by
        unfold handleSaveStudent
        rw [if_neg hempty, h1, h2]
      refine Or.inl ⟨validForm_score_bad (Or.inr (Or.inl ?_)), by rw [hres], by rw [hres]; intro st h; exact SaveResult.noConfusion h⟩
      simp [scoreOk, h2]
    rcases h3 : parseFloat f.uas with _ | q3
    · have hres : handleSaveStudent store nextId f = (.invalidScore, store) := by
        unfold handleSaveStudent
        rw [if_neg hempty, h1, h2, h3]
      refine Or.inl ⟨validForm_score_bad (Or.inr (Or.inr ?_)), by rw [hres], by rw [hres]; intro st h; exact SaveResult.noConfusion h⟩
      simp [scoreOk, h3]
    by_cases hrange : q1 < 0 ∨ q1 > 100 ∨ q2 < 0 ∨ q2 > 100 ∨ q3 < 0 ∨ q3 > 100
    · have hres : handleSaveStudent store nextId f = (.invalidScore, store) := by
        unfold handleSaveStudent
        rw [if_neg hempty, h1, h2, h3]
        exact if_pos hrange
      have hbad : scoreOk f.tb1 = false ∨ scoreOk f.tb2 = false ∨ scoreOk f.uas = false := by
        rcases hrange with h | h | h | h | h | h
        · exact Or.inl (by simp [scoreOk, h1, not_le.mpr h])
        · exact Or.inl (by simp [scoreOk, h1, not_le.mpr h])
        · exact Or.inr (Or.inl (by simp [scoreOk, h2, not_le.mpr h]))
        · exact Or.inr (Or.inl (by simp [scoreOk, h2, not_le.mpr h]))
        · exact Or.inr (Or.inr (by simp [scoreOk, h3, not_le.mpr h]))
        · exact Or.inr (Or.inr (by simp [scoreOk, h3, not_le.mpr h]))
      exact Or.inl ⟨validForm_score_bad hbad, by rw [hres], by rw [hres]; intro st h; exact SaveResult.noConfusion h⟩
    · have hb := hrange
      push_neg at hb
      obtain ⟨hr1, hr2, hr3, hr4, hr5, hr6⟩ := hb
      have he := hempty
      push_neg at he
      obtain ⟨hn1, hn2, hn3, hn4, hn5, hn6⟩ := he
      have hvalid : validForm f = true := by
        rw [validForm_iff]
        refine ⟨hn1, hn2, hn3, hn4, hn5, hn6, ?_, ?_, ?_⟩ <;>
          rw [scoreOk_iff]
        exacts [⟨q1, h1, hr1, hr2⟩, ⟨q2, h2, hr3, hr4⟩, ⟨q3, h3, hr5, hr6⟩]
      cases hdup : store.any (fun s => s.nim == f.nim)
      · cases hins : store.any (fun s => s.nim == jsTrim f.nim)
        · refine Or.inr (Or.inr (Or.inr ⟨hvalid, rfl, rfl, q1, q2, q3, rfl, rfl, rfl,
            hr1, hr2, hr3, hr4, hr5, hr6, ?_⟩))
          unfold handleSaveStudent
          rw [if_neg hempty, h1, h2, h3]
          show (if q1 < 0 ∨ q1 > 100 ∨ q2 < 0 ∨ q2 > 100 ∨ q3 < 0 ∨ q3 > 100 then
                  (SaveResult.invalidScore, store)
                else if store.any (fun s => s.nim == f.nim) then (SaveResult.duplicateNim, store)
                else if store.any (fun s => s.nim == jsTrim f.nim) then
                  (SaveResult.insertError, store)
                else (SaveResult.saved { id := nextId, nama := jsTrim f.nama, nim := jsTrim f.nim,
                                         matkul := jsTrim f.matkul, tb1 := q1, tb2 := q2, uas := q3 },
                      store ++ [{ id := nextId, nama := jsTrim f.nama, nim := jsTrim f.nim,
                                  matkul := jsTrim f.matkul, tb1 := q1, tb2 := q2, uas := q3 }])) = _
          rw [if_neg hrange, hdup, hins]
          rfl
        · refine Or.inr (Or.inr (Or.inl ⟨hvalid, rfl, rfl, ?_⟩))
          unfold handleSaveStudent
          rw [if_neg hempty, h1, h2, h3]
          show (if q1 < 0 ∨ q1 > 100 ∨ q2 < 0 ∨ q2 > 100 ∨ q3 < 0 ∨ q3 > 100 then
                  (SaveResult.invalidScore, store)
                else if store.any (fun s => s.nim == f.nim) then (SaveResult.duplicateNim, store)
                else if store.any (fun s => s.nim == jsTrim f.nim) then
                  (SaveResult.insertError, store)
                else (SaveResult.saved { id := nextId, nama := jsTrim f.nama, nim := jsTrim f.nim,
                                         matkul := jsTrim f.matkul, tb1 := q1, tb2 := q2, uas := q3 },
                      store ++ [{ id := nextId, nama := jsTrim f.nama, nim := jsTrim f.nim,
                                  matkul := jsTrim f.matkul, tb1 := q1, tb2 := q2, uas := q3 }])) = _
          rw [if_neg hrange, hdup, hins]
          rfl
      · refine Or.inr (Or.inl ⟨hvalid, rfl, ?_⟩)
        unfold handleSaveStudent
        rw [if_neg hempty, h1, h2, h3]
        show (if q1 < 0 ∨ q1 > 100 ∨ q2 < 0 ∨ q2 > 100 ∨ q3 < 0 ∨ q3 > 100 then
                (SaveResult.invalidScore, store)
              else if store.any (fun s => s.nim == f.nim) then (SaveResult.duplicateNim, store)
              else if store.any (fun s => s.nim == jsTrim f.nim) then
                (SaveResult.insertError, store)
              else (SaveResult.saved { id := nextId, nama := jsTrim f.nama, nim := jsTrim f.nim,
                                       matkul := jsTrim f.matkul, tb1 := q1, tb2 := q2, uas := q3 },
                    store ++ [{ id := nextId, nama := jsTrim f.nama, nim := jsTrim f.nim,
                                matkul := jsTrim f.matkul, tb1 := q1, tb2 := q2, uas := q3 }])) = _
        rw [if_neg hrange, hdup]
        rfl

/-- A concrete stored record used in the concrete evaluations below. -/
def exStudent : Student :=
  { id := 1, nama := "Andi", nim := "001", matkul := "CS", tb1 := 80, tb2 := 90, uas := 70 }

/-- A one-record store holding `exStudent`. -/
def exStore : List Student := [exStudent]

/-- A form whose NIM collides with `exStudent` but whose name field is
empty. -/
def exFormBad : StudentForm :=
  { nama := "", nim := "001", matkul := "CS", tb1 := "50", tb2 := "50", uas := "50" }

/-- A fully valid form whose NIM collides with `exStudent`. -/
def exFormDup : StudentForm :=
  { nama := "Budi", nim := "001", matkul := "CS", tb1 := "50", tb2 := "50", uas := "50" }

/-- C3 counterexample: a candidate whose NIM is already stored but
whose name field is empty is rejected by the presence validation (the
alert path), not with the duplicate-key error, because the field and
range validation runs before the duplicate-NIM lookup. -/
theorem handleSaveStudent_dup_counterexample :
    exStore.any (fun s => s.nim == exFormDup.nim) = true ∧
    exStore.any (fun s => s.nim == exFormBad.nim) = true ∧
    (handleSaveStudent exStore 2 exFormBad).1 = SaveResult.missingField ∧
    (handleSaveStudent exStore 2 exFormBad).1 ≠ SaveResult.duplicateNim ∧
    (handleSaveStudent exStore 2 exFormBad).2 = exStore := by
  refine ⟨by decide, by decide, by decide, by decide, by decide⟩

/-- C3 (amended): provided the candidate passes the presence and score
validation (which runs first), a NIM already stored verbatim fails with
the duplicate error and leaves the store unchanged; when the raw
pre-check passes but the trimmed NIM — the value actually inserted —
already exists, the INSERT violates the unique index and fails with the
generic storage error, again leaving the store unchanged; the insert
succeeds exactly when the form is valid and neither the raw nor the
trimmed NIM is already present, in which case precisely the parsed,
trimmed record is appended; every failing outcome leaves the store
unchanged. -/
theorem handleSaveStudent_amended (store : List Student) (nextId : Nat) (f : StudentForm) :
    (validForm f = true → store.any (fun s => s.nim == f.nim) = true →
        handleSaveStudent store nextId f = (.duplicateNim, store)) ∧
    (validForm f = true → store.any (fun s => s.nim == f.nim) = false →
        store.any (fun s => s.nim == jsTrim f.nim) = true →
        handleSaveStudent store nextId f = (.insertError, store)) ∧
    ((∃ st, (handleSaveStudent store nextId f).1 = .saved st) ↔
        (validForm f = true ∧ store.any (fun s => s.nim == f.nim) = false ∧
         store.any (fun s => s.nim == jsTrim f.nim) = false)) ∧
    (∀ st, (handleSaveStudent store nextId f).1 = .saved st →
        (handleSaveStudent store nextId f).2 = store ++ [st] ∧
        st.id = nextId ∧ st.nama = jsTrim f.nama ∧ st.nim = jsTrim f.nim ∧
        st.matkul = jsTrim f.matkul ∧
        parseFloat f.tb1 = some st.tb1 ∧ parseFloat f.tb2 = some st.tb2 ∧
        parseFloat f.uas = some st.uas ∧
        0 ≤ st.tb1 ∧ st.tb1 ≤ 100 ∧ 0 ≤ st.tb2 ∧ st.tb2 ≤ 100 ∧
        0 ≤ st.uas ∧ st.uas ≤ 100) ∧
    ((handleSaveStudent store nextId f).2 = store ∨
        ∃ st, handleSaveStudent store nextId f = (.saved st, store ++ [st])) := by
  rcases handleSaveStudent_master store nextId f with
    ⟨hv, hs, hns⟩ | ⟨hv, hdup, hres⟩ | ⟨hv, hdup, hins, hres⟩ |
    ⟨hv, hdup, hins, q1, q2, q3, h1, h2, h3, hr1, hr2, hr3, hr4, hr5, hr6, hres⟩
  · refine ⟨?_, ?_, ?_, ?_, Or.inl hs⟩
    · intro hv' _
      rw [hv] at hv'
      cases hv'
    · intro hv' _ _
      rw [hv] at hv'
      cases hv'
    · constructor
      · rintro ⟨st, hst⟩
        exact absurd hst (hns st)
      · rintro ⟨hv', _, _⟩
        rw [hv] at hv'
        cases hv'
    · intro st hst
      exact absurd hst (hns st)
  · refine ⟨fun _ _ => hres, ?_, ?_, ?_, Or.inl (by rw [hres])⟩
    · intro _ hdf _
      rw [hdup] at hdf
      cases hdf
    · constructor
      · rintro ⟨st, hst⟩
        rw [hres] at hst
        cases hst
      · rintro ⟨_, hd, _⟩
        rw [hdup] at hd
        cases hd
    · intro st hst
      rw [hres] at hst
      cases hst
  · refine ⟨?_, fun _ _ _ => hres, ?_, ?_, Or.inl (by rw [hres])⟩
    · intro _ hdf
      rw [hdup] at hdf
      cases hdf
    · constructor
      · rintro ⟨st, hst⟩
        rw [hres] at hst
        cases hst
      · rintro ⟨_, _, hi⟩
        rw [hins] at hi
        cases hi
    · intro st hst
      rw [hres] at hst
      cases hst
  · refine ⟨?_, ?_, ?_, ?_, Or.inr ⟨_, hres⟩⟩
    · intro _ hdf
      rw [hdup] at hdf
      cases hdf
    · intro _ _ hif
      rw [hins] at hif
      cases hif
    · exact ⟨fun _ => ⟨hv, hdup, hins⟩, fun _ => ⟨_, by rw [hres]⟩⟩
    · intro st hst
      rw [hres] at hst
      injection hst with heq
      subst heq
      rw [hres]
      exact ⟨rfl, rfl, rfl, rfl, rfl, h1, h2, h3, hr1, hr2, hr3, hr4, hr5, hr6⟩

/-- Concrete evaluation of the modelled `parseFloat` on the score
string used by the example forms. -/
theorem parseFloat_50 : parseFloat "50" = some 50 := by
  have h1 : digitsToNat ['5', '0'] = 50 := by decide
  have h2 : digitsToNat ([] : List Char) = 0 := by decide
  have h : parseFloat "50" = some ((digitsToNat ['5', '0'] : ℚ) +
      (digitsToNat ([] : List Char) : ℚ) / (10 : ℚ) ^ (0 : Nat)) := rfl
  rw [h, h1, h2]
  norm_num

/-- The concrete colliding form passes the presence and score
validation. -/
theorem validForm_exFormDup : validForm exFormDup = true := by
  rw [validForm_iff]
  refine ⟨by decide, by decide, by decide, by decide, by decide, by decide, ?_, ?_, ?_⟩ <;>
    · rw [scoreOk_iff]
      exact ⟨50, parseFloat_50, by norm_num, by norm_num⟩

/-- A valid form whose NIM carries a trailing space: the raw duplicate
pre-check misses the stored "001", but the trimmed NIM — the value the
INSERT writes — collides with it. -/
def exFormPad : StudentForm :=
  { nama := "Budi", nim := "001 ", matkul := "CS", tb1 := "50", tb2 := "50", uas := "50" }

/-- The whitespace-padded form passes the presence and score
validation. -/
theorem validForm_exFormPad : validForm exFormPad = true := by
  rw [validForm_iff]
  refine ⟨by decide, by decide, by decide, by decide, by decide, by decide, ?_, ?_, ?_⟩ <;>
    · rw [scoreOk_iff]
      exact ⟨50, parseFloat_50, by norm_num, by norm_num⟩

/-- Witness for C3: the duplicate pre-check branch and the
unique-index INSERT-failure branch of the amended theorem, applied to
concrete colliding forms. -/
theorem handleSaveStudent_amended_witness :
    handleSaveStudent exStore 2 exFormDup = (SaveResult.duplicateNim, exStore) ∧
    handleSaveStudent exStore 2 exFormPad = (SaveResult.insertError, exStore) :=
  ⟨(handleSaveStudent_amended exStore 2 exFormDup).1 validForm_exFormDup (by decide),
   (handleSaveStudent_amended exStore 2 exFormPad).2.1 validForm_exFormPad
     (by decide) (by decide)⟩

/-- `handleDeleteStudent` from `index.tsx`: the confirmed branch runs
the parametrized `DELETE FROM mahasiswa WHERE id = ?` and reloads the
list.  The model returns the remaining rows together with the number of
rows the statement matched: SQLite completes the statement normally
whether or not a row matched, so the embedding has no failure outcome. -/
def handleDeleteStudent (store : List Student) (studentId : Nat) : List Student × Nat :=
  (store.filter (fun s => s.id != studentId),
   (store.filter (fun s => s.id == studentId)).length)

/-- A store none of whose ids match is untouched by the id filter. -/
theorem filter_id_ne_eq_self {t : List Student} {sid : Nat} (h : ∀ x ∈ t, x.id ≠ sid) :
    t.filter (fun s => s.id != sid) = t := by
  apply List.filter_eq_self.mpr
  intro a ha
  simpa using h a ha

/-- A store none of whose ids match yields nothing under the id
selection. -/
theorem filter_id_eq_eq_nil {t : List Student} {sid : Nat} (h : ∀ x ∈ t, x.id ≠ sid) :
    t.filter (fun s => s.id == sid) = [] := by
  rw [List.filter_eq_nil_iff]
  intro a ha
  simpa using h a ha

/-- With pairwise distinct ids, a present id selects exactly one row
and its removal shortens the store by exactly one. -/
theorem delete_present_counts (sid : Nat) (s₀ : Student) (hid : s₀.id = sid) :
    ∀ store : List Student, (store.map (fun s => s.id)).Nodup → s₀ ∈ store →
      (store.filter (fun s => s.id == sid)).length = 1 ∧
      (store.filter (fun s => s.id != sid)).length = store.length - 1 := by
  intro store
  induction store with
  | nil =>
    intro _ h
    cases h
  | cons a t ih =>
    intro hnd hmem
    rw [List.map_cons, List.nodup_cons] at hnd
    obtain ⟨hna, hnt⟩ := hnd
    by_cases hcase : s₀ = a
    · subst hcase
      have htnone : ∀ x ∈ t, x.id ≠ sid := by
        intro x hx hxe
        exact hna (List.mem_map.mpr ⟨x, hx, by rw [hxe, hid]⟩)
      constructor
      · rw [List.filter_cons_of_pos (by simp [hid]), filter_id_eq_eq_nil htnone]
        rfl
      · rw [List.filter_cons_of_neg (by simp [hid]), filter_id_ne_eq_self htnone]
        simp
    · have hs₀t : s₀ ∈ t := (List.mem_cons.mp hmem).resolve_left hcase
      have haid : a.id ≠ sid := by
        intro he
        exact hna (List.mem_map.mpr ⟨s₀, hs₀t, by rw [hid, he]⟩)
      obtain ⟨ih1, ih2⟩ := ih hnt hs₀t
      constructor
      · rw [List.filter_cons_of_neg (by simp [haid])]
        exact ih1
      · rw [List.filter_cons_of_pos (by simp [haid])]
        have hlen : 1 ≤ t.length := List.length_pos.mpr (List.ne_nil_of_mem hs₀t)
        simp only [List.length_cons, ih2]
        omega

/-- C6 counterexample: deleting the absent id 99 from the concrete
store completes normally — zero rows are matched and the store is
returned unchanged — whereas the claim asserts the operation fails with
NotFound; the embedded operation has no failure outcome at all, because
the code issues an unconditional DELETE and SQLite treats a
non-matching DELETE as a successful no-op. -/
theorem handleDeleteStudent_counterexample :
    (∀ s ∈ exStore, s.id ≠ 99) ∧
    handleDeleteStudent exStore 99 = (exStore, 0) := by
  refine ⟨by decide, by decide⟩

/-- C6 (amended): deleting an id not present leaves the store unchanged
with zero rows affected and no error reported (no NotFound failure
exists in the code path); deletion removes exactly the records bearing
the id and touches no other record, and with pairwise-distinct ids (the
integer primary key) a present id removes exactly one record. -/
theorem handleDeleteStudent_spec (store : List Student) (sid : Nat) :
    ((∀ s ∈ store, s.id ≠ sid) → handleDeleteStudent store sid = (store, 0)) ∧
    (∀ s, s ∈ (handleDeleteStudent store sid).1 ↔ s ∈ store ∧ s.id ≠ sid) ∧
    ((store.map (fun s => s.id)).Nodup → ∀ s₀ ∈ store, s₀.id = sid →
        (handleDeleteStudent store sid).2 = 1 ∧
        (handleDeleteStudent store sid).1.length = store.length - 1) := by
  refine ⟨?_, ?_, ?_⟩
  · intro h
    unfold handleDeleteStudent
    rw [Prod.mk.injEq]
    exact ⟨filter_id_ne_eq_self h, by rw [filter_id_eq_eq_nil h]; rfl⟩
  · intro s
    simp [handleDeleteStudent, List.mem_filter]
  · intro hnd s₀ hs₀ hid
    exact delete_present_counts sid s₀ hid store hnd hs₀

/-- Witness for C6: both the absent-id branch and the present-id branch
of the amended theorem applied to the concrete store. -/
theorem handleDeleteStudent_spec_witness :
    handleDeleteStudent exStore 99 = (exStore, 0) ∧
    (handleDeleteStudent exStore 1).2 = 1 ∧
    (handleDeleteStudent exStore 1).1.length = exStore.length - 1 :=
  ⟨(handleDeleteStudent_spec exStore 99).1 (by decide),
   (handleDeleteStudent_spec exStore 1).2.2 (by decide) exStudent (by decide) rfl⟩

/-- `handleSaveEditedStudent` from `index.tsx`: the parametrized UPDATE
of all mutable columns of the row carrying the given id, followed by a
reload. -/
def handleSaveEditedStudent (store : List Student) (st : Student) : List Student :=
  store.map (fun s => if s.id = st.id then st else s)

/-- `handleSave` of `EditStudentModal` in `index.tsx`: presence check
on the six fields, `parseFloat` plus range check on the scores, a
duplicate-NIM lookup performed only when the NIM changed, then
`handleSaveEditedStudent`; the submitted fields are not trimmed. -/
def editHandleSave (store : List Student) (student : Student) (f : StudentForm) :
    SaveResult × List Student :=
  if f.nama = "" ∨ f.nim = "" ∨ f.matkul = "" ∨ f.tb1 = "" ∨ f.tb2 = "" ∨ f.uas = "" then
    (.missingField, store)
  else
    match parseFloat f.tb1, parseFloat f.tb2, parseFloat f.uas with
    | some t1, some t2, some u =>
      if t1 < 0 ∨ t1 > 100 ∨ t2 < 0 ∨ t2 > 100 ∨ u < 0 ∨ u > 100 then
        (.invalidScore, store)
      else if f.nim ≠ student.nim ∧ store.any (fun s => s.nim == f.nim) = true then
        (.duplicateNim, store)
      else
        let st : Student := { id := student.id, nama := f.nama, nim := f.nim,
                              matkul := f.matkul, tb1 := t1, tb2 := t2, uas := u }
        (.saved st, handleSaveEditedStudent store st)
    | _, _, _ => (.invalidScore, store)

/-- Full case analysis of the edit modal's save handler, mirroring
`handleSaveStudent_master`. -/
theorem editHandleSave_master (store : List Student) (student : Student) (f : StudentForm) :
    (validForm f = false ∧ (editHandleSave store student f).2 = store ∧
        ((editHandleSave store student f).1 = .missingField ∨
         (editHandleSave store student f).1 = .invalidScore)) ∨
    (validForm f = true ∧
        (f.nim ≠ student.nim ∧ store.any (fun s => s.nim == f.nim) = true) ∧
        editHandleSave store student f = (.duplicateNim, store)) ∨
    (validForm f = true ∧
        ¬(f.nim ≠ student.nim ∧ store.any (fun s => s.nim == f.nim) = true) ∧
        ∃ q1 q2 q3, parseFloat f.tb1 = some q1 ∧ parseFloat f.tb2 = some q2 ∧
          parseFloat f.uas = some q3 ∧
          0 ≤ q1 ∧ q1 ≤ 100 ∧ 0 ≤ q2 ∧ q2 ≤ 100 ∧ 0 ≤ q3 ∧ q3 ≤ 100 ∧
          editHandleSave store student f =
            (.saved { id := student.id, nama := f.nama, nim := f.nim, matkul := f.matkul,
                      tb1 := q1, tb2 := q2, uas := q3 },
             handleSaveEditedStudent store
               { id := student.id, nama := f.nama, nim := f.nim, matkul := f.matkul,
                 tb1 := q1, tb2 := q2, uas := q3 })) := by
  by_cases hempty : f.nama = "" ∨ f.nim = "" ∨ f.matkul = "" ∨ f.tb1 = "" ∨ f.tb2 = "" ∨ f.uas = ""
  · have hres : editHandleSave store student f = (.missingField, store) := by
      unfold editHandleSave
      rw [if_pos hempty]
    exact Or.inl ⟨validForm_empty hempty, by rw [hres], Or.inl (by rw [hres])⟩
  · rcases h1 : parseFloat f.tb1 with _ | q1
    · have hres : editHandleSave store student f = (.invalidScore, store) := by
        unfold editHandleSave
        rw [if_neg hempty, h1]
      refine Or.inl ⟨validForm_score_bad (Or.inl ?_), by rw [hres], Or.inr (by rw [hres])⟩
      simp [scoreOk, h1]
    rcases h2 : parseFloat f.tb2 with _ | q2
    · have hres : editHandleSave store student f = (.invalidScore, store) := by
        unfold editHandleSave
        rw [if_neg hempty, h1, h2]
      refine Or.inl ⟨validForm_score_bad (Or.inr (Or.inl ?_)), by rw [hres], Or.inr (by rw [hres])⟩
      simp [scoreOk, h2]
    rcases h3 : parseFloat f.uas with _ | q3
    · have hres : editHandleSave store student f = (.invalidScore, store) := by
        unfold editHandleSave
        rw [if_neg hempty, h1, h2, h3]
      refine Or.inl ⟨validForm_score_bad (Or.inr (Or.inr ?_)), by rw [hres], Or.inr (by rw [hres])⟩
      simp [scoreOk, h3]
    by_cases hrange : q1 < 0 ∨ q1 > 100 ∨ q2 < 0 ∨ q2 > 100 ∨ q3 < 0 ∨ q3 > 100
    · have hres : editHandleSave store student f = (.invalidScore, store) := by
        unfold editHandleSave
        rw [if_neg hempty, h1, h2, h3]
        exact if_pos hrange
      have hbad : scoreOk f.tb1 = false ∨ scoreOk f.tb2 = false ∨ scoreOk f.uas = false := by
        rcases hrange with h | h | h | h | h | h
        · exact Or.inl (by simp [scoreOk, h1, not_le.mpr h])
        · exact Or.inl (by simp [scoreOk, h1, not_le.mpr h])
        · exact Or.inr (Or.inl (by simp [scoreOk, h2, not_le.mpr h]))
        · exact Or.inr (Or.inl (by simp [scoreOk, h2, not_le.mpr h]))
        · exact Or.inr (Or.inr (by simp [scoreOk, h3, not_le.mpr h]))
        · exact Or.inr (Or.inr (by simp [scoreOk, h3, not_le.mpr h]))
      exact Or.inl ⟨validForm_score_bad hbad, by rw [hres], Or.inr (by rw [hres])⟩
    · have hb := hrange
      push_neg at hb
      obtain ⟨hr1, hr2, hr3, hr4, hr5, hr6⟩ := hb
      have he := hempty
      push_neg at he
      obtain ⟨hn1, hn2, hn3, hn4, hn5, hn6⟩ := he
      have hvalid : validForm f = true := by
        rw [validForm_iff]
        refine ⟨hn1, hn2, hn3, hn4, hn5, hn6, ?_, ?_, ?_⟩ <;>
          rw [scoreOk_iff]
        exacts [⟨q1, h1, hr1, hr2⟩, ⟨q2, h2, hr3, hr4⟩, ⟨q3, h3, hr5, hr6⟩]
      by_cases hdup : f.nim ≠ student.nim ∧ store.any (fun s => s.nim == f.nim) = true
      · refine Or.inr (Or.inl ⟨hvalid, hdup, ?_⟩)
        unfold editHandleSave
        rw [if_neg hempty, h1, h2, h3]
        show (if q1 < 0 ∨ q1 > 100 ∨ q2 < 0 ∨ q2 > 100 ∨ q3 < 0 ∨ q3 > 100 then
                (SaveResult.invalidScore, store)
              else if f.nim ≠ student.nim ∧ store.any (fun s => s.nim == f.nim) = true then
                (SaveResult.duplicateNim, store)
              else (SaveResult.saved { id := student.id, nama := f.nama, nim := f.nim,
                                       matkul := f.matkul, tb1 := q1, tb2 := q2, uas := q3 },
                    handleSaveEditedStudent store
                      { id := student.id, nama := f.nama, nim := f.nim, matkul := f.matkul,
                        tb1 := q1, tb2 := q2, uas := q3 })) = _
        rw [if_neg hrange, if_pos hdup]
      · refine Or.inr (Or.inr ⟨hvalid, hdup, q1, q2, q3, rfl, rfl, rfl,
          hr1, hr2, hr3, hr4, hr5, hr6, ?_⟩)
        unfold editHandleSave
        rw [if_neg hempty, h1, h2, h3]
        show (if q1 < 0 ∨ q1 > 100 ∨ q2 < 0 ∨ q2 > 100 ∨ q3 < 0 ∨ q3 > 100 then
                (SaveResult.invalidScore, store)
              else if f.nim ≠ student.nim ∧ store.any (fun s => s.nim == f.nim) = true then
                (SaveResult.duplicateNim, store)
              else (SaveResult.saved { id := student.id, nama := f.nama, nim := f.nim,
                                       matkul := f.matkul, tb1 := q1, tb2 := q2, uas := q3 },
                    handleSaveEditedStudent store
                      { id := student.id, nama := f.nama, nim := f.nim, matkul := f.matkul,
                        tb1 := q1, tb2 := q2, uas := q3 })) = _
        rw [if_neg hrange, if_neg hdup]

/-- A second concrete stored record, id 2 and NIM 002. -/
def exStudent2 : Student :=
  { id := 2, nama := "Caca", nim := "002", matkul := "IF", tb1 := 50, tb2 := 50, uas := 50 }

/-- A two-record store with distinct NIMs. -/
def exStore2 : List Student := [exStudent2, exStudent]

/-- An edit submission for `exStudent2` whose NIM collides with
`exStudent` but whose name field is empty. -/
def exEditBad : StudentForm :=
  { nama := "", nim := "001", matkul := "IF", tb1 := "50", tb2 := "50", uas := "50" }

/-- A valid edit submission for `exStudent2` keeping its own NIM. -/
def exEditSame : StudentForm :=
  { nama := "Caca", nim := "002", matkul := "IF", tb1 := "50", tb2 := "50", uas := "50" }

/-- A valid edit submission for `exStudent2` whose NIM collides with
`exStudent`. -/
def exEditDup : StudentForm :=
  { nama := "Caca", nim := "001", matkul := "IF", tb1 := "50", tb2 := "50", uas := "50" }

/-- C7 counterexample: an edit submission whose NIM differs from the
record's current NIM and collides with another stored record is
rejected by the presence validation (empty name), not with the
duplicate-key error, so the claimed "exactly when" biconditional fails
as stated. -/
theorem editHandleSave_counterexample :
    exEditBad.nim ≠ exStudent2.nim ∧
    exStore2.any (fun s => s.nim == exEditBad.nim) = true ∧
    (editHandleSave exStore2 exStudent2 exEditBad).1 = SaveResult.missingField ∧
    (editHandleSave exStore2 exStudent2 exEditBad).1 ≠ SaveResult.duplicateNim := by
  refine ⟨by decide, by decide, by decide, by decide⟩

/-- C7 (amended): among submissions passing the presence and score
validation, the edit fails with the duplicate error exactly when the
submitted NIM differs from the record's current NIM and matches a
stored record (necessarily a different record when the store is
consistent with the edited student); an unchanged NIM never produces
the duplicate error; on success every mutable field is overwritten from
the submission, the id is unchanged, and the store is updated by
replacing exactly the rows carrying that id. -/
theorem editHandleSave_amended (store : List Student) (student : Student) (f : StudentForm) :
    (validForm f = true →
      ((editHandleSave store student f).1 = .duplicateNim ↔
        (f.nim ≠ student.nim ∧ store.any (fun s => s.nim == f.nim) = true))) ∧
    (f.nim = student.nim → (editHandleSave store student f).1 ≠ .duplicateNim) ∧
    ((∀ s ∈ store, s.id = student.id → s.nim = student.nim) → validForm f = true →
      ((editHandleSave store student f).1 = .duplicateNim ↔
        (f.nim ≠ student.nim ∧ ∃ s ∈ store, s.id ≠ student.id ∧ s.nim = f.nim))) ∧
    (∀ st, (editHandleSave store student f).1 = .saved st →
        st.id = student.id ∧ st.nama = f.nama ∧ st.nim = f.nim ∧ st.matkul = f.matkul ∧
        parseFloat f.tb1 = some st.tb1 ∧ parseFloat f.tb2 = some st.tb2 ∧
        parseFloat f.uas = some st.uas ∧
        (editHandleSave store student f).2 =
          store.map (fun s => if s.id = student.id then st else s)) := by
  have hany : ∀ (g : String),
      store.any (fun s => s.nim == g) = true ↔ ∃ s ∈ store, s.nim = g := by
    intro g
    simp [List.any_eq_true]
  have hdup_iff : (∀ s ∈ store, s.id = student.id → s.nim = student.nim) →
      f.nim ≠ student.nim →
      (store.any (fun s => s.nim == f.nim) = true ↔
        ∃ s ∈ store, s.id ≠ student.id ∧ s.nim = f.nim) := by
    intro hcons hne
    rw [hany]
    constructor
    · rintro ⟨s, hs, hnim⟩
      refine ⟨s, hs, ?_, hnim⟩
      intro hid
      exact hne (by rw [← hnim, hcons s hs hid])
    · rintro ⟨s, hs, _, hnim⟩
      exact ⟨s, hs, hnim⟩
  rcases editHandleSave_master store student f with
    ⟨hv, hs, hr⟩ | ⟨hv, hdup, hres⟩ |
    ⟨hv, hdup, q1, q2, q3, h1, h2, h3, hr1, hr2, hr3, hr4, hr5, hr6, hres⟩
  · refine ⟨?_, ?_, ?_, ?_⟩
    · intro hv'
      rw [hv] at hv'
      cases hv'
    · intro _ hd
      rcases hr with hr | hr <;> rw [hr] at hd <;> cases hd
    · intro _ hv'
      rw [hv] at hv'
      cases hv'
    · intro st hst
      rcases hr with hr | hr <;> rw [hr] at hst <;> cases hst
  · refine ⟨?_, ?_, ?_, ?_⟩
    · intro _
      rw [hres]
      exact ⟨fun _ => hdup, fun _ => rfl⟩
    · intro hsame _
      exact hdup.1 hsame
    · intro hcons _
      rw [hres]
      constructor
      · intro _
        exact ⟨hdup.1, (hdup_iff hcons hdup.1).mp hdup.2⟩
      · intro _
        rfl
    · intro st hst
      rw [hres] at hst
      cases hst
  · refine ⟨?_, ?_, ?_, ?_⟩
    · intro _
      rw [hres]
      constructor
      · intro hd
        cases hd
      · intro hd
        exact absurd hd hdup
    · intro _ hd
      rw [hres] at hd
      cases hd
    · intro hcons _
      rw [hres]
      constructor
      · intro hd
        cases hd
      · rintro ⟨hne, hex⟩
        exact absurd ⟨hne, (hdup_iff hcons hne).mpr hex⟩ hdup
    · intro st hst
      rw [hres] at hst
      injection hst with heq
      subst heq
      rw [hres]
      exact ⟨rfl, rfl, rfl, rfl, h1, h2, h3, rfl⟩

/-- The concrete colliding edit submission passes the presence and
score validation. -/
theorem validForm_exEditDup : validForm exEditDup = true := by
  rw [validForm_iff]
  refine ⟨by decide, by decide, by decide, by decide, by decide, by decide, ?_, ?_, ?_⟩ <;>
    · rw [scoreOk_iff]
      exact ⟨50, parseFloat_50, by norm_num, by norm_num⟩

/-- Witness for C7: the unchanged-NIM component and the duplicate
biconditional of the amended theorem applied at concrete inputs. -/
theorem editHandleSave_amended_witness :
    (editHandleSave exStore2 exStudent2 exEditSame).1 ≠ SaveResult.duplicateNim ∧
    ((editHandleSave exStore2 exStudent2 exEditDup).1 = SaveResult.duplicateNim ↔
      (exEditDup.nim ≠ exStudent2.nim ∧
        exStore2.any (fun s => s.nim == exEditDup.nim) = true)) :=
  ⟨(editHandleSave_amended exStore2 exStudent2 exEditSame).2.1 rfl,
   (editHandleSave_amended exStore2 exStudent2 exEditDup).1 validForm_exEditDup⟩

/-- `a` is a leading run of `b` (character-by-character equality). -/
def listIsInit (a b : List Char) : Bool :=
  match a, b with
  | [], _ => true
  | _ :: _, [] => false
  | x :: xs, y :: ys => x == y && listIsInit xs ys

/-- `needle` occurs contiguously somewhere inside `hay`. -/
def listHasSeg (needle hay : List Char) : Bool :=
  match hay with
  | [] => needle.isEmpty
  | _ :: t => listIsInit needle hay || listHasSeg needle t

/-- JS `String.prototype.includes`: substring occurrence. -/
def jsIncludes (s q : String) : Bool :=
  listHasSeg q.data s.data

/-- `filteredStudents` from `index.tsx`: the lowercased trimmed query
matched against name, NIM and course, conjoined with the grade and
course dropdown filters and their `Semua` sentinels. -/
def filteredStudents (students : List Student) (searchQuery gradeFilter courseFilter : String) :
    List Student :=
  let query := searchQuery.trim.toLower
  students.filter (fun s =>
    let matchesSearch := query.length == 0 ||
      jsIncludes s.nama.toLower query || jsIncludes s.nim.toLower query ||
      jsIncludes s.matkul.toLower query
    let score := calculateFinalScore s.tb1 s.tb2 s.uas
    let grade := scoreToGrade score
    let matchesGrade := gradeFilter == "Semua Grade" || gradeFilter == grade
    let matchesCourse := courseFilter == "Semua Program Studi" || courseFilter == s.matkul
    matchesSearch && matchesGrade && matchesCourse)

/-- The same filter with the three predicates evaluated in the
opposite order. -/
def filteredStudentsRev (students : List Student) (searchQuery gradeFilter courseFilter : String) :
    List Student :=
  let query := searchQuery.trim.toLower
  students.filter (fun s =>
    let matchesCourse := courseFilter == "Semua Program Studi" || courseFilter == s.matkul
    let matchesGrade := gradeFilter == "Semua Grade" ||
      gradeFilter == scoreToGrade (calculateFinalScore s.tb1 s.tb2 s.uas)
    let matchesSearch := query.length == 0 ||
      jsIncludes s.nama.toLower query || jsIncludes s.nim.toLower query ||
      jsIncludes s.matkul.toLower query
    matchesCourse && matchesGrade && matchesSearch)

/-- The claim's search predicate: trimmed query empty, or the lowered
query a substring of the lowered name, NIM or course. -/
def matchesSearchP (s : Student) (searchQuery : String) : Prop :=
  searchQuery.trim.toLower.length = 0 ∨
  jsIncludes s.nama.toLower searchQuery.trim.toLower = true ∨
  jsIncludes s.nim.toLower searchQuery.trim.toLower = true ∨
  jsIncludes s.matkul.toLower searchQuery.trim.toLower = true

/-- The claim's grade-filter predicate: all-sentinel or equal to the
grade computed from the record's final score. -/
def matchesGradeP (s : Student) (gradeFilter : String) : Prop :=
  gradeFilter = "Semua Grade" ∨
  gradeFilter = scoreToGrade (calculateFinalScore s.tb1 s.tb2 s.uas)

/-- The claim's course-filter predicate: all-sentinel or exact course
match. -/
def matchesCourseP (s : Student) (courseFilter : String) : Prop :=
  courseFilter = "Semua Program Studi" ∨ courseFilter = s.matkul

/-- Rotating a three-fold Boolean conjunction. -/
theorem bool_and_rot (a b c : Bool) : (a && b && c) = (c && b && a) := by
  cases a <;> cases b <;> cases c <;> rfl

/-- C8: a record is visible exactly when it is in the record set and
satisfies the search predicate, the grade-filter predicate and the
course-filter predicate; the three pure predicates compose by logical
AND, so evaluating them in the opposite order yields the same list. -/
theorem filteredStudents_spec (students : List Student) (q gf cf : String) :
    (∀ s, s ∈ filteredStudents students q gf cf ↔
        s ∈ students ∧ matchesSearchP s q ∧ matchesGradeP s gf ∧ matchesCourseP s cf) ∧
    filteredStudents students q gf cf = filteredStudentsRev students q gf cf := by
  constructor
  · intro s
    simp only [filteredStudents, List.mem_filter, Bool.and_eq_true, Bool.or_eq_true,
      beq_iff_eq, matchesSearchP, matchesGradeP, matchesCourseP]
    tauto
  · unfold filteredStudents filteredStudentsRev
    apply List.filter_congr
    intro a _
    exact bool_and_rot _ _ _

/-- `totalPages` from `index.tsx`:
`Math.max(1, Math.ceil(totalFiltered / itemsPerPage))`; for a positive
page size the JS ceiling of the exact quotient is natural ceiling
division. -/
def totalPages (totalFiltered itemsPerPage : Nat) : Nat :=
  max 1 ((totalFiltered + itemsPerPage - 1) / itemsPerPage)

/-- `paginatedStudents` from `index.tsx`:
`filtered.slice(startIndex, startIndex + itemsPerPage)` with
`startIndex = (currentPage - 1) * itemsPerPage`. -/
def paginatedStudents (filtered : List Student) (currentPage itemsPerPage : Nat) : List Student :=
  (filtered.drop ((currentPage - 1) * itemsPerPage)).take itemsPerPage

/-- Linear bounds extracted from a division-with-remainder equation. -/
theorem prod_bounds (A r n k : Nat) (hk : 0 < k) (hdm : A + r = n + k - 1) (hr : r < k) :
    n ≤ A ∧ A ≤ n + k - 1 := by
  omega

/-- The page count times the page size covers the whole list. -/
theorem le_totalPages_mul (n k : Nat) (hk : 0 < k) : n ≤ totalPages n k * k := by
  obtain ⟨key, -⟩ := prod_bounds (k * ((n + k - 1) / k)) ((n + k - 1) % k) n k hk
    (Nat.div_add_mod _ _) (Nat.mod_lt _ hk)
  calc n ≤ k * ((n + k - 1) / k) := key
    _ = ((n + k - 1) / k) * k := Nat.mul_comm _ _
    _ ≤ totalPages n k * k := Nat.mul_le_mul_right k (le_max_right 1 _)

/-- `Math.ceil` of the exact quotient equals natural ceiling
division. -/
theorem ceil_div_eq (n k : Nat) (hk : 0 < k) :
    ⌈(n : ℚ) / (k : ℚ)⌉ = (((n + k - 1) / k : ℕ) : ℤ) := by
  have hkQ : (0 : ℚ) < (k : ℚ) := by exact_mod_cast hk
  obtain ⟨key1, key2⟩ := prod_bounds (k * ((n + k - 1) / k)) ((n + k - 1) % k) n k hk
    (Nat.div_add_mod _ _) (Nat.mod_lt _ hk)
  have hcast : ((n + k - 1 : ℕ) : ℚ) = (n : ℚ) + (k : ℚ) - 1 := by
    have h1 : 1 ≤ n + k := by omega
    push_cast [Nat.cast_sub h1]
    ring
  have hq1 : (n : ℚ) ≤ (k : ℚ) * (((n + k - 1) / k : ℕ) : ℚ) := by
    exact_mod_cast key1
  have hq2 : (k : ℚ) * (((n + k - 1) / k : ℕ) : ℚ) ≤ (n : ℚ) + (k : ℚ) - 1 := by
    calc (k : ℚ) * (((n + k - 1) / k : ℕ) : ℚ)
        = ((k * ((n + k - 1) / k) : ℕ) : ℚ) := by push_cast; ring
      _ ≤ ((n + k - 1 : ℕ) : ℚ) := by exact_mod_cast key2
      _ = (n : ℚ) + (k : ℚ) - 1 := hcast
  have hzQ : ((((((n + k - 1) / k : ℕ) : ℤ)) : ℚ)) = (((n + k - 1) / k : ℕ) : ℚ) := by
    norm_cast
  rw [Int.ceil_eq_iff]
  constructor
  · rw [hzQ, lt_div_iff₀ hkQ]
    nlinarith [hq2, hkQ]
  · rw [hzQ, div_le_iff₀ hkQ]
    nlinarith [hq1]

/-- Concatenating the successive `k`-chunks of a list rebuilds its
prefix of `n * k` elements. -/
theorem join_chunks (k : Nat) (l : List Student) :
    ∀ n : Nat, ((List.range n).map (fun i => (l.drop (i * k)).take k)).flatten = l.take (n * k) := by
  intro n
  induction n with
  | zero => simp
  | succ m ih =>
    rw [List.range_succ, List.map_append, List.flatten_append, ih]
    simp only [List.map_cons, List.map_nil, List.flatten_cons, List.flatten_nil, List.append_nil]
    rw [← List.take_add]
    congr 1
    ring

/-- C4: the visible page is the stated slice; `totalPages` is
`max(1, ceil(count / itemsPerPage))`; and concatenating the slices of
pages 1 through `totalPages` reproduces exactly the filtered list. -/
theorem pagination_spec (l : List Student) (itemsPerPage : Nat) (h : 0 < itemsPerPage) :
    (∀ currentPage : Nat,
        paginatedStudents l currentPage itemsPerPage =
          (l.drop ((currentPage - 1) * itemsPerPage)).take itemsPerPage) ∧
    ((totalPages l.length itemsPerPage : ℤ) =
        max 1 ⌈(l.length : ℚ) / (itemsPerPage : ℚ)⌉) ∧
    ((List.range (totalPages l.length itemsPerPage)).map
        (fun i => paginatedStudents l (i + 1) itemsPerPage)).flatten = l := by
  refine ⟨fun _ => rfl, ?_, ?_⟩
  · rw [ceil_div_eq l.length itemsPerPage h]
    unfold totalPages
    push_cast
    rfl
  · have hcover : l.length ≤ totalPages l.length itemsPerPage * itemsPerPage :=
      le_totalPages_mul _ _ h
    have hjoin := join_chunks itemsPerPage l (totalPages l.length itemsPerPage)
    simp only [paginatedStudents, Nat.add_sub_cancel]
    rw [hjoin, List.take_of_length_le hcover]

/-- Witness for C4: the whole-list reconstruction applied to the
concrete two-record store with page size 2. -/
theorem pagination_spec_witness :
    ((List.range (totalPages exStore2.length 2)).map
        (fun i => paginatedStudents exStore2 (i + 1) 2)).flatten = exStore2 :=
  (pagination_spec exStore2 2 (by decide)).2.2

/-- The grade filter menu options from `index.tsx`. -/
def gradeOptions : List String := ["Semua Grade", "A", "B+", "B", "C+", "C", "D"]

/-- The course filter options: the all-sentinel prepended to the
distinct course values, as in `courseOptionsWithAll` of `index.tsx`. -/
def courseOptionsWithAll (courseOptions : List String) : List String :=
  "Semua Program Studi" :: courseOptions

/-- The clear-filters visibility condition from `index.tsx`:
`gradeFilter !== 'All Grades' || courseFilter !== 'All Courses'`. -/
def clearFiltersVisible (gradeFilter courseFilter : String) : Bool :=
  gradeFilter != "All Grades" || courseFilter != "All Courses"

/-- C9: for every reachable filter state — a grade filter drawn from
the menu options and a course filter drawn from the option list, whose
all-sentinels are the `Semua` strings — the clear-filters condition is
true, because its literals never match the sentinels actually used; in
particular the Reset control is shown when both filters sit at their
all-sentinels. -/
theorem clearFiltersVisible_always (gradeFilter courseFilter : String) (co : List String)
    (hg : gradeFilter ∈ gradeOptions) (_hc : courseFilter ∈ courseOptionsWithAll co) :
    clearFiltersVisible gradeFilter courseFilter = true ∧
    clearFiltersVisible "Semua Grade" "Semua Program Studi" = true := by
  refine ⟨?_, by decide⟩
  fin_cases hg <;> rfl

/-- Witness for C9: the condition evaluated with both filters at their
all-sentinels. -/
theorem clearFiltersVisible_always_witness :
    clearFiltersVisible "Semua Grade" "Semua Program Studi" = true :=
  (clearFiltersVisible_always "Semua Grade" "Semua Program Studi" []
    (by decide) (by decide)).1
